import Mathlib

/-!
Verification development for the squidly-animal-game repository.

The development shallowly embeds the core logic of the game as executable
Lean definitions and proves the specified properties about them:

* the pointer registry (src/input-manager.js),
* the per-tick control-authority resolver and the main animation loop
  (WebGLFishCursor._loop in src/unnamed/part_001),
* the fish pose integrator (WebGLFishCursor._updateFish),
* the particle pool (_getParticle, _spawnParticle, _updateParticles),
* the star reconciler (syncStarsFromFirebase, _spawnStarAtCell,
  _collectStar, _updateStars),
* the pure game-logic layer (GameService.validateGridSize,
  calculateStarCount, generateRandomStars).

Modelling conventions:

* A JavaScript number is modelled as Option ℚ: some q is a finite value,
  none stands for any non-finite value (NaN or plus/minus Infinity).
  Floating-point rounding and overflow to Infinity are not modelled; all
  quantities involved are small.  Arithmetic helpers (oAdd, oSub, oMul,
  oDiv, oNeg) propagate none the way NaN propagates in JS, and division
  by zero produces none (Infinity or NaN in JS, non-finite either way).
* External collaborators (the THREE raycaster and the Math.cos, Math.sin
  trigonometric routines) are passed in as opaque function parameters,
  matching the spec, which treats the renderable layer as opaque.
* Math.random() draws are passed in explicitly as rational parameters in
  [0, 1); the theorems hold for every choice of draws.
* Renderable handles (meshes, materials) are not modelled; removing a star
  from the local list and disposing its mesh happen together in the source
  (_collectStar, _removeStarByIndex), so a released renderable is recorded
  by the id appearing in the disposed-ids output of the tick.
-/

namespace Squidly

/-! ## JS number model -/

/-- Addition of JS numbers: none (non-finite) propagates like NaN. -/
def oAdd : Option ℚ → Option ℚ → Option ℚ
  | some a, some b => some (a + b)
  | _, _ => none

/-- Subtraction of JS numbers. -/
def oSub : Option ℚ → Option ℚ → Option ℚ
  | some a, some b => some (a - b)
  | _, _ => none

/-- Multiplication of JS numbers. -/
def oMul : Option ℚ → Option ℚ → Option ℚ
  | some a, some b => some (a * b)
  | _, _ => none

/-- Division of JS numbers: division by zero yields a non-finite value. -/
def oDiv : Option ℚ → Option ℚ → Option ℚ
  | some a, some b => if b = 0 then none else some (a / b)
  | _, _ => none

/-- Negation of a JS number. -/
def oNeg : Option ℚ → Option ℚ
  | some a => some (-a)
  | none => none

/-- Model of WebGLFishCursor._safeNumber with a finite fallback:
returns val if it is a finite number, otherwise the fallback. -/
def safeNum (val : Option ℚ) (fallback : ℚ) : ℚ :=
  val.getD fallback

/-- Model of WebGLFishCursor._safeNumber where the fallback itself is a
stored JS number (used as fish.pointerX = safeNumber(p.x, fish.pointerX)). -/
def safeNumD (val fallback : Option ℚ) : Option ℚ :=
  match val with
  | some a => some a
  | none => fallback

/-! ## Pointer registry (src/input-manager.js) -/

/-- A JS value passed to updatePointerPosition: a number (possibly
non-finite), undefined, or null. -/
inductive JSArg where
  | num (v : Option ℚ)
  | undef
  | jsnull
deriving DecidableEq

/-- Stored pointer state: last sample coordinates and liveness timestamp
(InputManager._getOrCreatePointer fields x, y, lastSeen). -/
structure Pointer where
  x : Option ℚ
  y : Option ℚ
  lastSeen : ℚ
deriving DecidableEq

/-- The registry maps pointer ids to stored pointers (InputManager._pointers). -/
def Registry : Type := String → Option Pointer

/-- Model of InputManager._getOrCreatePointer: existing entry, or a fresh
pointer with x ≡ 0, y ≡ 0, lastSeen ≡ 0. -/
def getOrCreatePointer (reg : Registry) (id : String) : Pointer :=
  (reg id).getD { x := some 0, y := some 0, lastSeen := 0 }

/-- Model of InputManager.updatePointerPosition(x, y, id): rejects the
sample when x or y is undefined or null; otherwise stores both
coordinates (finite or not) and stamps lastSeen with the current time. -/
def updatePointerPosition (reg : Registry) (x y : JSArg) (id : String) (now : ℚ) : Registry :=
  if x = JSArg.undef ∨ y = JSArg.undef ∨ x = JSArg.jsnull ∨ y = JSArg.jsnull then
    reg
  else
    let p := getOrCreatePointer reg id
    let xv : Option ℚ := match x with | JSArg.num v => v | _ => p.x
    let yv : Option ℚ := match y with | JSArg.num v => v | _ => p.y
    fun j => if j = id then some { x := xv, y := yv, lastSeen := now } else reg j

/-! ## Control-authority resolver (WebGLFishCursor._loop, lines 611-647) -/

/-- Timeout (ms) after which a pointer is considered inactive. -/
def INACTIVE_TIMEOUT_MS : ℚ := 2000

/-- Which named pointer drives the fish this tick. -/
inductive Controller where
  | participant
  | host
deriving DecidableEq

/-- The liveness test applied to the participant pointer in _loop:
pointer exists and (now - lastSeen) < INACTIVE_TIMEOUT_MS. -/
def pointerLive (p : Option Pointer) (now : ℚ) : Bool :=
  match p with
  | some pp => decide (now - pp.lastSeen < INACTIVE_TIMEOUT_MS)
  | none => false

/-- Controller selection from _loop: in multiplayer mode only a live
participant may drive the fish; in single-player mode a live participant
wins, otherwise the host pointer is used whenever it exists (no liveness
requirement), otherwise nobody drives the fish. -/
def resolveController (isMultiplayerMode : Bool) (participant host : Option Pointer)
    (now : ℚ) : Option Controller :=
  if isMultiplayerMode then
    if pointerLive participant now then some Controller.participant else none
  else
    if pointerLive participant now then some Controller.participant
    else if host.isSome then some Controller.host
    else none

/-- Collision-authority bit from _loop: in multiplayer mode this client is
the authority iff it is not the host and the participant is controlling;
in single-player mode, iff its role matches the current controller. -/
def isControllingFishOf (isMultiplayerMode isHost : Bool) (c : Option Controller) : Bool :=
  if isMultiplayerMode then
    !isHost && decide (c = some Controller.participant)
  else
    (isHost && decide (c = some Controller.host)) ||
      (!isHost && decide (c = some Controller.participant))

/-! ## Configuration and environment -/

/-- The configuration fields the core logic reads (defaults in the
constructor of WebGLFishCursor).  SMOOTHING and SCALE flow into guarded
arithmetic, so they are kept as JS numbers; STAR_UI_LEFT_SHARE models the
percentage-based left-UI margin option of _gridCellToWorld. -/
structure Config where
  SMOOTHING : Option ℚ
  SCALE : Option ℚ
  PARTICLE_SPAWN_RATE : ℚ
  STAR_GRID_SIZE : Option ℚ
  STAR_UI_LEFT_SHARE : Option ℚ
  STAR_FLOAT_RADIUS : ℚ
  STAR_FLOAT_SPEED_MIN : ℚ
  STAR_FLOAT_SPEED_MAX : ℚ
  STAR_DEPTH_RANGE : ℚ
  STAR_SPIN_SPEED_MIN : ℚ
  STAR_SPIN_SPEED_MAX : ℚ

/-- External collaborators used by the tick: the camera raycast against the
z = 0 plane (returns the hit point or none), and the trigonometric
routines Math.cos and Math.sin. -/
structure Env where
  intersectPlane : Option ℚ → Option ℚ → Option (Option ℚ × Option ℚ)
  cos : ℚ → ℚ
  sin : ℚ → ℚ

/-! ## Fish pose state and the pose integrator (_updateFish) -/

/-- Creature simulation state owned by the animation integrator: the group
transform (position, rotation, scale), the remembered pointer sample, the
smoothing target, the speed signal, the previous position and the fin
phase accumulator. -/
structure Fish where
  posX : Option ℚ
  posY : Option ℚ
  rotX : Option ℚ
  rotY : Option ℚ
  rotZ : Option ℚ
  scaleX : Option ℚ
  scaleY : Option ℚ
  scaleZ : Option ℚ
  pointerX : Option ℚ
  pointerY : Option ℚ
  targetX : Option ℚ
  targetY : Option ℚ
  speedX : Option ℚ
  speedY : Option ℚ
  prevPosX : Option ℚ
  prevPosY : Option ℚ
  finPhase : Option ℚ
deriving DecidableEq

/-- Model of WebGLFishCursor._updateFish (part_001 lines 741-875): speed
signals from the remembered pointer, exponential smoothing of position
and tilt, fin-phase accumulation and squash-and-stretch scale.  Sub-part
pivots, eye meshes and material colors belong to the opaque renderable
and are not part of the group transform, so they are not tracked; the
isFinite guard before group.scale.set always passes in the rational
model, since products of finite rationals are finite. -/
def updateFish (cfg : Config) (wIn hIn : ℚ) (f : Fish) : Fish :=
  let w := max 1 wIn
  let h := max 1 hIn
  let windowHalfY := h / 2
  let pointerX := safeNum f.pointerX (w / 2)
  let pointerY := safeNum f.pointerY windowHalfY
  let speedXStore := safeNum (some (max 0 (min 100 (pointerX / w * 100)))) 0
  let speedYStore := safeNum (some ((pointerY - windowHalfY) / 10)) 0
  let speedX := max 0 (min (safeNum (some speedXStore) 0) 100)
  let speedY := safeNum (some speedYStore) 0
  let speedNormalized := safeNum (some (speedX / 100)) 0
  let speedScale := safeNum (some (speedX / 300)) 0
  let currentX := safeNum f.posX 0
  let targetXv := safeNum f.targetX currentX
  let newX := oAdd (some currentX) (oDiv (some (targetXv - currentX)) cfg.SMOOTHING)
  let currentY := safeNum f.posY 0
  let newY := oAdd (some currentY) (oDiv (some ((-speedY * (3/20)) - currentY)) cfg.SMOOTHING)
  let swingZ := safeNum (some (-speedY / 50)) 0
  let curRotZ := safeNum f.rotZ 0
  let curRotX := safeNum f.rotX 0
  let curRotY := safeNum f.rotY 0
  let baseScale := safeNum cfg.SCALE (4/5) / 100
  { f with
    posX := some (safeNum newX currentX)
    posY := some (safeNum newY currentY)
    rotZ := some (safeNum (oAdd (some curRotZ) (oDiv (some (swingZ - curRotZ)) cfg.SMOOTHING)) curRotZ)
    rotX := some (safeNum (oAdd (some curRotX) (oDiv (some (swingZ - curRotX)) cfg.SMOOTHING)) curRotX)
    rotY := some (safeNum (oAdd (some curRotY) (oDiv (some (swingZ - curRotY)) cfg.SMOOTHING)) curRotY)
    scaleX := some (baseScale * (1 + speedScale))
    scaleY := some (baseScale * (1 - speedScale))
    scaleZ := some (baseScale * (1 - speedScale))
    speedX := some speedXStore
    speedY := some speedYStore
    prevPosX := f.posX
    prevPosY := f.posY
    finPhase := some (safeNum (some (safeNum f.finPhase 0 + speedNormalized)) 0) }

/-- Model of the fish-update section of _loop (lines 671-691): remember
the pointer sample through _safeNumber fallbacks, convert the raw sample
to normalized device coordinates, raycast, copy a successful plane hit
into the smoothing target and run the pose integrator. -/
def fishPhase (env : Env) (cfg : Config) (wIn hIn : ℚ) (active : Pointer) (f : Fish) : Fish :=
  let f1 := { f with pointerX := safeNumD active.x f.pointerX,
                     pointerY := safeNumD active.y f.pointerY }
  let ndcX := oSub (oMul (oDiv active.x (some wIn)) (some 2)) (some 1)
  let ndcY := oAdd (oMul (oNeg (oDiv active.y (some hIn))) (some 2)) (some 1)
  let f2 := match env.intersectPlane ndcX ndcY with
    | some hit => { f1 with targetX := hit.1, targetY := hit.2 }
    | none => f1
  updateFish cfg wIn hIn f2

/-! ## Particle pool (_getParticle, _spawnParticle, _updateParticles) -/

/-- A pooled background particle.  pid models JS object identity (the
order of allocation by _createParticle); rotation uses JS-number
arithmetic since a zero scale would make the spin rate non-finite. -/
structure Particle where
  pid : ℕ
  posX : ℚ
  posY : ℚ
  posZ : ℚ
  scale : ℚ
  rotX : Option ℚ
  rotY : Option ℚ
  rotZ : Option ℚ
deriving DecidableEq

/-- Model of _createParticle: a fresh mesh with the default THREE
transform (position 0, scale 1, rotation 0); geometry and color are
cosmetic and not tracked. -/
def createParticle (nid : ℕ) : Particle :=
  { pid := nid, posX := 0, posY := 0, posZ := 0, scale := 1,
    rotX := some 0, rotY := some 0, rotZ := some 0 }

/-- Pool state: the active list flyingParticles, the free list
waitingParticles, and the allocation counter for fresh identities. -/
structure PoolState where
  flying : List Particle
  waiting : List Particle
  nextId : ℕ
deriving DecidableEq

/-- Remove the last element of a list, returning the remaining prefix and
that element (models JS Array.prototype.pop). -/
def popLast {α : Type} : List α → Option (List α × α)
  | [] => none
  | [a] => some ([], a)
  | a :: b :: rest =>
    match popLast (b :: rest) with
    | some (l, q) => some (a :: l, q)
    | none => none

/-- Model of _getParticle: pop from the free list if non-empty, else
construct a new particle. -/
def getParticle (st : PoolState) : Particle × PoolState :=
  match popLast st.waiting with
  | some (rest, p) => (p, { st with waiting := rest })
  | none => (createParticle st.nextId, { st with nextId := st.nextId + 1 })

/-- Model of _spawnParticle: acquire a particle, place it at the right
edge of the view volume with random height, depth and scale (the three
Math.random draws are the components of r), and push it onto the active
list. -/
def spawnParticle (vbx vby : ℚ) (r : ℚ × ℚ × ℚ) (st : PoolState) : PoolState :=
  let (p, st1) := getParticle st
  let p2 := { p with
    posX := vbx,
    posY := -vby + r.1 * vby * 2,
    posZ := (r.2.1 - 1/2) * 2,
    scale := 3/20 + r.2.2 * (3/5) }
  { st1 with flying := st1.flying ++ [p2] }

/-- The per-particle motion of _updateParticles: spin at a rate inversely
proportional to scale (non-finite for a degenerate zero scale, as in JS)
and drift leftward at a linear function of the fish speed signal. -/
def stepParticle (speedX : ℚ) (p : Particle) : Particle :=
  let rotSpeed := oMul (oDiv (some 1) (some p.scale)) (some (1/20))
  { p with
    rotX := oAdd p.rotX rotSpeed,
    rotY := oAdd p.rotY rotSpeed,
    rotZ := oAdd p.rotZ rotSpeed,
    posX := p.posX + (-(2/25)) * (2/5 + speedX / 100 * (4/5)) }

/-- The backward iteration of _updateParticles over the active list: move
each particle and recycle it to the free list once past the left edge
with margin 1.2.  The head of the list is index 0, which the backward
iteration processes last, so the recursive call handles the tail
first. -/
def updateParticlesGo (speedX vbx : ℚ) : List Particle → List Particle × List Particle
  | [] => ([], [])
  | p :: rest =>
    let pr := updateParticlesGo speedX vbx rest
    let p2 := stepParticle speedX p
    if p2.posX < -vbx - 6/5 then (pr.1, pr.2 ++ [p2]) else (p2 :: pr.1, pr.2)

/-- Model of _updateParticles: recycled particles are pushed onto the free
list rather than destroyed. -/
def updateParticles (speedX vbx : ℚ) (st : PoolState) : PoolState :=
  let pr := updateParticlesGo speedX vbx st.flying
  { st with flying := pr.1, waiting := st.waiting ++ pr.2 }

/-! ## Star system: grid mapping, reconciler and per-tick update -/

/-- JS Math.round: floor(q + 1/2), rounding half-values toward plus
infinity. -/
def jsRound (q : ℚ) : ℤ := ⌊q + 1/2⌋

/-- Model of _getStarGridSize: Number(config.STAR_GRID_SIZE) rounded when
finite (4 when not), then clamped to the range 1..4. -/
def getStarGridSize (starGridSize : Option ℚ) : ℕ :=
  match starGridSize with
  | none => 4
  | some q => (max 1 (min 4 (jsRound q))).toNat

/-- The value of JS Math.PI, which is exactly representable as a rational
(884279719003555 divided by 2 to the 48th power). -/
def jsPI : ℚ := 884279719003555 / 281474976710656

/-- Model of _gridCellToWorld (part_001 lines 1080-1110): maps a grid cell
to world coordinates, inset by the left-UI margin and by edge padding.
The row and col arguments are JS numbers, since a malformed snapshot
entry feeds undefined here (producing a non-finite position in JS). -/
def gridCellToWorld (cfg : Config) (vbx vby : ℚ) (row col : Option ℚ) :
    Option ℚ × Option ℚ :=
  let n := getStarGridSize cfg.STAR_GRID_SIZE
  if vbx = 0 ∨ vby = 0 then (some 0, some 0)
  else
    let uiShare := match cfg.STAR_UI_LEFT_SHARE with
      | some v => if v = 0 then 1/5 else v
      | none => 1/5
    let uiLeftWorldWidth := vbx * 2 * uiShare
    let padX := min (3/5) ((vbx * 2 - uiLeftWorldWidth) * (2/25))
    let padY := min (3/5) (vby * (3/25))
    let left := -vbx + uiLeftWorldWidth + padX
    let right := vbx - padX
    let top := vby - padY
    let bottom := -vby + padY
    let u := oDiv (oAdd col (some (1/2))) (some (n : ℚ))
    let v := oDiv (oAdd row (some (1/2))) (some (n : ℚ))
    (oAdd (some left) (oMul (some (right - left)) u),
     oAdd (some top) (oMul (some (bottom - top)) v))

/-- A local collectible star: the cross-client id, the grid cell, the
float-animation base position and the randomized animation parameters.
The id and cell components are JS values because the reconciler copies
them from the snapshot without validation. -/
structure Star where
  id : Option String
  row : Option ℚ
  col : Option ℚ
  baseX : Option ℚ
  baseY : Option ℚ
  radius : ℚ
  speed : ℚ
  depth : ℚ
  spinSpeed : ℚ
  phase : ℚ
deriving DecidableEq

/-- One entry of a Firebase star snapshot; a malformed entry has one or
more fields missing (undefined). -/
structure FbEntry where
  id : Option String
  row : Option ℚ
  col : Option ℚ
deriving DecidableEq

/-- The five Math.random draws consumed by one _spawnStarAtCell call. -/
structure RandParams where
  r1 : ℚ
  r2 : ℚ
  r3 : ℚ
  r4 : ℚ
  r5 : ℚ

/-- Model of _randBetween. -/
def randBetween (lo hi r : ℚ) : ℚ := lo + r * (hi - lo)

/-- Model of _spawnStarAtCell: derive the base position from the cell via
the grid-to-world mapping and randomize the float, spin and phase
parameters.  The mesh belongs to the opaque renderable layer. -/
def spawnStarAtCell (cfg : Config) (vbx vby : ℚ) (rp : RandParams)
    (row col : Option ℚ) (id : Option String) : Star :=
  let base := gridCellToWorld cfg vbx vby row col
  { id := id, row := row, col := col, baseX := base.1, baseY := base.2,
    radius := randBetween (1/10) cfg.STAR_FLOAT_RADIUS rp.r1,
    speed := randBetween cfg.STAR_FLOAT_SPEED_MIN cfg.STAR_FLOAT_SPEED_MAX rp.r2,
    depth := randBetween (1/5) cfg.STAR_DEPTH_RANGE rp.r3,
    spinSpeed := randBetween cfg.STAR_SPIN_SPEED_MIN cfg.STAR_SPIN_SPEED_MAX rp.r4,
    phase := rp.r5 * jsPI * 2 }

/-- The creation pass of syncStarsFromFirebase: walk the snapshot in order
and spawn a star for every entry whose id is not already present locally;
k counts the spawns performed so far and indexes the random draws. -/
def spawnLoop (cfg : Config) (vbx vby : ℚ) (rp : ℕ → RandParams)
    (currentIds : List (Option String)) : ℕ → List FbEntry → List Star
  | _, [] => []
  | k, e :: es =>
    if e.id ∈ currentIds then spawnLoop cfg vbx vby rp currentIds k es
    else spawnStarAtCell cfg vbx vby (rp k) e.row e.col e.id ::
      spawnLoop cfg vbx vby rp currentIds (k + 1) es

/-- The whole mutable state of the cursor object that the core logic
touches: readiness, the fish, the particle pool, the star list, the
queued pre-init snapshot, the collision grace deadline, the authority
bit, and the previous frame timestamp. -/
structure CursorState where
  ready : Bool
  fish : Option Fish
  flying : List Particle
  waiting : List Particle
  nextParticleId : ℕ
  particleSpawnTimer : ℚ
  stars : List Star
  pendingFirebaseStars : Option (List FbEntry)
  collisionEnabledAt : ℚ
  isControllingFish : Bool
  lastT : ℚ
deriving DecidableEq

/-- Model of syncStarsFromFirebase (part_001 lines 1360-1389).  The input
is none when the caller passes a non-array value, which the source
coerces to the empty list.  Before initialization the snapshot is queued
and nothing else happens.  Otherwise: remove every local star whose id is
not in the snapshot, spawn a star for every snapshot entry whose id is
not local, and re-arm the collision grace deadline to now + 500.
Returns the new state together with the number of stars created and the
number destroyed by this call. -/
def syncStarsFromFirebase (cfg : Config) (vbx vby : ℚ) (rp : ℕ → RandParams)
    (now : ℚ) (st : CursorState) (input : Option (List FbEntry)) :
    CursorState × ℕ × ℕ :=
  let fb := input.getD []
  if st.ready = false then
    ({ st with pendingFirebaseStars := some fb }, 0, 0)
  else
    let currentIds := st.stars.map (fun s => s.id)
    let newIds := fb.map (fun e => e.id)
    let kept := st.stars.filter (fun s => decide (s.id ∈ newIds))
    let spawned := spawnLoop cfg vbx vby rp currentIds 0 fb
    ({ st with stars := kept ++ spawned, collisionEnabledAt := now + 500 },
     spawned.length, st.stars.length - kept.length)

/-- Display position of a star this tick: base position plus the
Lissajous float offset (cos(t) * radius, sin(1.3 t) * radius) where
t = time * floatSpeed + phase. -/
def starDisplayPos (env : Env) (time : ℚ) (s : Star) : Option ℚ × Option ℚ :=
  let t := time * s.speed + s.phase
  (oAdd s.baseX (some (env.cos t * s.radius)),
   oAdd s.baseY (some (env.sin (t * (13/10)) * s.radius)))

/-- The collision test of _updateStars for one star: a fish must exist,
the current time must be past the grace deadline, and the
fish-to-star distance must be below 0.7.  distanceTo compares the
Euclidean distance; for finite coordinates that is equivalent to
comparing squared distances, and any non-finite coordinate makes the JS
comparison NaN < 0.7, which is false.  Both objects sit on the z = 0
plane. -/
def starCollides (env : Env) (time now deadline : ℚ)
    (fish : Option (Option ℚ × Option ℚ)) (s : Star) : Bool :=
  match fish with
  | none => false
  | some (fx, fy) =>
    decide (deadline < now) &&
      (match fx, fy, (starDisplayPos env time s).1, (starDisplayPos env time s).2 with
       | some a, some b, some c, some d => decide ((a - c)^2 + (b - d)^2 < (7/10)^2)
       | _, _, _, _ => false)

/-- The backward iteration of _updateStars with the embedded _collectStar:
a colliding star is removed from the local list and its mesh disposed
(recorded in the third component), and the collected(id) event is emitted
exactly when the authority bit is set and a callback is installed (second
component).  The head of the list is index 0, processed last by the
backward iteration, so the recursion handles the tail first. -/
def updateStarsGo (env : Env) (time now deadline : ℚ)
    (fish : Option (Option ℚ × Option ℚ)) (auth hasCb : Bool) :
    List Star → List Star × List (Option String) × List (Option String)
  | [] => ([], [], [])
  | s :: rest =>
    let (rest2, evs, disp) := updateStarsGo env time now deadline fish auth hasCb rest
    if starCollides env time now deadline fish s then
      (rest2, evs ++ (if auth && hasCb then [s.id] else []), disp ++ [s.id])
    else (s :: rest2, evs, disp)

/-- Model of _updateStars (part_001 lines 1464-1517) restricted to list
membership and events; the spin, twinkle and material updates act on the
opaque renderable only.  Returns the surviving star list, the emitted
collected(id) events, and the ids whose renderables were released. -/
def updateStars (env : Env) (time now deadline : ℚ)
    (fish : Option (Option ℚ × Option ℚ)) (auth hasCb : Bool)
    (stars : List Star) : List Star × List (Option String) × List (Option String) :=
  match stars with
  | [] => ([], [], [])
  | _ => updateStarsGo env time now deadline fish auth hasCb stars

/-! ## The per-frame tick (_loop) -/

/-- The particle-spawn section of _loop (lines 661-666): advance the spawn
timer by dt and, once it reaches the spawn interval, reset it and spawn
one particle.  A zero spawn rate makes the interval non-finite, which the
timer never reaches. -/
def particlePhase (cfg : Config) (vbx vby : ℚ) (prand : ℚ × ℚ × ℚ)
    (dt timer0 : ℚ) (pool : PoolState) : ℚ × PoolState :=
  let timer := timer0 + dt
  let spawnHit := if cfg.PARTICLE_SPAWN_RATE = 0 then false
    else decide (1 / cfg.PARTICLE_SPAWN_RATE ≤ timer)
  (if spawnHit then 0 else timer,
   if spawnHit then spawnParticle vbx vby prand pool else pool)

/-- Model of one iteration of _loop (part_001 lines 593-701).  Inputs: the
two registry pointers, the current wall clock, the window size, the view
bounds, the Math.random draws for a potential particle spawn, and whether
an onStarCollected callback is installed.  Returns the new state and the
collected(id) events emitted this tick.  Rendering is external. -/
def loopTick (env : Env) (cfg : Config) (isMultiplayerMode isHost : Bool)
    (p h : Option Pointer) (now wIn hIn vbx vby : ℚ) (prand : ℚ × ℚ × ℚ)
    (hasCb : Bool) (st : CursorState) : CursorState × List (Option String) :=
  match st.ready, st.fish with
  | true, some f =>
    let dt := (now - st.lastT) / 1000
    let time := now * (1/1000)
    let controller := resolveController isMultiplayerMode p h now
    let auth := isControllingFishOf isMultiplayerMode isHost controller
    let tp := particlePhase cfg vbx vby prand dt st.particleSpawnTimer
      ⟨st.flying, st.waiting, st.nextParticleId⟩
    let timer2 := tp.1
    let pool1 := tp.2
    let active : Option Pointer := match controller with
      | some Controller.participant => p
      | some Controller.host => h
      | none => none
    let f3 := match active with
      | some ap => fishPhase env cfg wIn hIn ap f
      | none => f
    let sx := safeNum f3.speedX 0
    let pool2 := updateParticles sx vbx pool1
    let r := updateStars env time now st.collisionEnabledAt
      (some (f3.posX, f3.posY)) auth hasCb st.stars
    ({ st with
        fish := some f3
        flying := pool2.flying
        waiting := pool2.waiting
        nextParticleId := pool2.nextId
        particleSpawnTimer := timer2
        stars := r.1
        isControllingFish := auth
        lastT := now }, r.2.1)
  | _, _ => (st, [])

/-! ## GameService (pure game-logic layer, part_001 lines 1640-1749) -/

/-- Model of GameService.validateGridSize: Number(size) is 4 when
non-finite, otherwise rounded and clamped to 1..4. -/
def validateGridSize (size : Option ℚ) : ℕ :=
  match size with
  | none => 4
  | some q => (max 1 (min 4 (jsRound q))).toNat

/-- Model of GameService.calculateStarCount: validate the grid size, then
take half of the total cells rounded up, at least 1. -/
def calculateStarCount (gridSize : Option ℚ) : ℕ :=
  let validSize := validateGridSize gridSize
  let totalCells := validSize * validSize
  max 1 (Int.toNat ⌈(totalCells : ℚ) / 2⌉)

/-- A star object produced by GameService.generateRandomStars; the id
string comes from createStarId, which mixes in the wall clock and a
random suffix, modelled by the opaque generator passed in. -/
structure GStar where
  id : String
  row : ℕ
  col : ℕ
deriving DecidableEq

/-- The nested row/col loops of generateRandomStars that build every grid
cell in row-major order. -/
def buildCells (n : ℕ) : List (ℕ × ℕ) :=
  (List.range n).flatMap (fun row => (List.range n).map (fun col => (row, col)))

/-- The JS destructuring swap of two list positions used by the
Fisher-Yates loop: both reads happen before both writes. -/
def listSwap {α : Type} (l : List α) (i j : ℕ) : List α :=
  match l[i]?, l[j]? with
  | some a, some b => (l.set i b).set j a
  | _, _ => l

/-- The Fisher-Yates loop of generateRandomStars, counting i down from
the last index to 1; rand i models Math.floor(Math.random() * (i + 1)),
reduced modulo i + 1 so the swap partner always lies in 0..i as the
uniform draw does. -/
def fyGo {α : Type} (rand : ℕ → ℕ) : ℕ → List α → List α
  | 0, l => l
  | i + 1, l => fyGo rand i (listSwap l (i + 1) (rand (i + 1) % (i + 2)))

/-- The whole shuffle pass over a list. -/
def fisherYates {α : Type} (rand : ℕ → ℕ) (l : List α) : List α :=
  fyGo rand (l.length - 1) l

/-- Model of GameService.generateRandomStars: validate the grid size,
build all cells, shuffle, keep the first starCount cells and attach
generated ids. -/
def generateRandomStars (rand : ℕ → ℕ) (idGen : ℕ → ℕ → String)
    (gridSize : Option ℚ) : List GStar :=
  let validSize := validateGridSize gridSize
  let starCount := calculateStarCount (some (validSize : ℚ))
  let allCells := buildCells validSize
  let shuffled := fisherYates rand allCells
  let selectedCells := shuffled.take starCount
  selectedCells.map (fun c => { id := idGen c.1 c.2, row := c.1, col := c.2 })

/-! ## Claim C2: controller selection and authority in shared mode -/

/-- C2: in shared (multiplayer) mode, for every tick the active controller
is the participant pointer if and only if the participant pointer exists
and its last sample is younger than the inactivity timeout; the host
pointer is never selected; and the local collision-authority bit is true
if and only if this process is the non-host role and the active
controller is the participant. -/
theorem multiplayer_controller_authority (p h : Option Pointer) (now : ℚ) (isHost : Bool) :
    (resolveController true p h now = some Controller.participant ↔
      ∃ pp, p = some pp ∧ now - pp.lastSeen < INACTIVE_TIMEOUT_MS)
    ∧ resolveController true p h now ≠ some Controller.host
    ∧ (isControllingFishOf true isHost (resolveController true p h now) = true ↔
        isHost = false ∧ resolveController true p h now = some Controller.participant) := by
  refine ⟨?_, ?_, ?_⟩
  · by_cases hl : pointerLive p now
    · simp only [resolveController, if_true, hl, true_iff]
      cases p with
      | none => simp [pointerLive] at hl
      | some pp =>
        simp only [pointerLive, decide_eq_true_eq] at hl
        exact ⟨pp, rfl, hl⟩
    · simp only [resolveController, if_true, hl, if_false, Bool.false_eq_true]
      constructor
      · intro hc; exact absurd hc (by simp)
      · rintro ⟨pp, rfl, hlt⟩
        exact absurd (by simp [pointerLive, hlt] : pointerLive (some pp) now = true) hl
  · by_cases hl : pointerLive p now <;> simp [resolveController, hl]
  · simp [isControllingFishOf, Bool.and_eq_true, Bool.not_eq_true', and_comm]

/-! ## Claim C5: the pointer registry and non-finite coordinates -/

/-- A concrete registry holding one pointer with finite coordinates. -/
def regC5 : Registry :=
  fun j => if j = "p" then some { x := some 1, y := some 2, lastSeen := 0 } else none

/-- C5 counterexample: the claim says a sample whose x is non-finite is
rejected and the stored state is unchanged, but updatePointerPosition
only rejects undefined and null.  Passing NaN as x (modelled by
JSArg.num none) overwrites the stored coordinates and the liveness
timestamp of pointer p. -/
theorem updatePointerPosition_nan_stored :
    updatePointerPosition regC5 (JSArg.num none) (JSArg.num (some 3)) "p" 100 "p"
      = some { x := none, y := some 3, lastSeen := 100 }
    ∧ regC5 "p" = some { x := some 1, y := some 2, lastSeen := 0 }
    ∧ ({ x := none, y := some 3, lastSeen := 100 } : Pointer)
        ≠ { x := some 1, y := some 2, lastSeen := 0 } := by
  refine ⟨?_, rfl, ?_⟩
  · simp [updatePointerPosition]
  · intro hcontra
    simpa using congrArg Pointer.x hcontra

/-- C5 amended: updatePointerPosition rejects a sample, leaving the
registry unchanged, exactly when a coordinate is undefined or null; any
number, non-finite ones included, is stored together with the fresh
liveness timestamp. -/
theorem updatePointerPosition_guard (reg : Registry) (x y : JSArg) (id : String) (now : ℚ) :
    ((x = JSArg.undef ∨ y = JSArg.undef ∨ x = JSArg.jsnull ∨ y = JSArg.jsnull) →
      updatePointerPosition reg x y id now = reg)
    ∧ (∀ xv yv, x = JSArg.num xv → y = JSArg.num yv →
        updatePointerPosition reg x y id now id
          = some { x := xv, y := yv, lastSeen := now }) := by
  constructor
  · intro hbad
    simp [updatePointerPosition, hbad]
  · rintro xv yv rfl rfl
    simp [updatePointerPosition]

/-- An empty registry for the witness. -/
def regW : Registry := fun _ => none

/-! ## Claim C3: controller selection in single-player mode -/

/-- C3: in non-shared mode a live participant pointer wins; otherwise the
host pointer is selected whenever it exists, with no liveness requirement
on the host; and on a tick where neither pointer exists the creature
state is left untouched while the particle pool and the collectibles are
still updated. -/
theorem singleplayer_controller_fallback (p h : Option Pointer) (now : ℚ)
    (env : Env) (cfg : Config) (isHost : Bool) (wIn hIn vbx vby : ℚ)
    (prand : ℚ × ℚ × ℚ) (hasCb : Bool) (st : CursorState) (f : Fish) :
    ((∃ pp, p = some pp ∧ now - pp.lastSeen < INACTIVE_TIMEOUT_MS) →
        resolveController false p h now = some Controller.participant)
    ∧ (∀ hp, h = some hp →
        (∀ pp, p = some pp → ¬(now - pp.lastSeen < INACTIVE_TIMEOUT_MS)) →
        resolveController false p h now = some Controller.host)
    ∧ (p = none → h = none → resolveController false p h now = none)
    ∧ (st.ready = true → st.fish = some f →
        (loopTick env cfg false isHost none none now wIn hIn vbx vby prand hasCb st).1.fish
          = some f
        ∧ (loopTick env cfg false isHost none none now wIn hIn vbx vby prand hasCb st).1.flying
          = (updateParticles (safeNum f.speedX 0) vbx
              (particlePhase cfg vbx vby prand ((now - st.lastT) / 1000)
                st.particleSpawnTimer ⟨st.flying, st.waiting, st.nextParticleId⟩).2).flying
        ∧ (loopTick env cfg false isHost none none now wIn hIn vbx vby prand hasCb st).1.stars
          = (updateStars env (now * (1/1000)) now st.collisionEnabledAt
              (some (f.posX, f.posY)) false hasCb st.stars).1) := by
  refine ⟨?_, ?_, ?_, ?_⟩
  · rintro ⟨pp, rfl, hlt⟩
    simp [resolveController, pointerLive, hlt]
  · rintro hp rfl hnot
    cases p with
    | none => simp [resolveController, pointerLive]
    | some pp =>
      have : ¬(now - pp.lastSeen < INACTIVE_TIMEOUT_MS) := hnot pp rfl
      simp [resolveController, pointerLive, this]
  · rintro rfl rfl
    simp [resolveController, pointerLive]
  · intro hready hfish
    have hc : resolveController false (none : Option Pointer) none now = none := by
      simp [resolveController, pointerLive]
    have hauth : isControllingFishOf false isHost none = false := by
      simp [isControllingFishOf]
    cases st with
    | mk ready fish flying waiting nextParticleId particleSpawnTimer stars
        pendingFirebaseStars collisionEnabledAt isControlling lastT =>
      subst hready
      simp only [CursorState.mk.injEq] at hfish ⊢
      subst hfish
      simp only [loopTick, hc, hauth]
      exact ⟨trivial, trivial, trivial⟩

/-- A fish whose pose and bookkeeping fields are all finite zeros (unit
scale). -/
def fW : Fish :=
  { posX := some 0, posY := some 0, rotX := some 0, rotY := some 0, rotZ := some 0,
    scaleX := some 1, scaleY := some 1, scaleZ := some 1,
    pointerX := some 0, pointerY := some 0, targetX := some 0, targetY := some 0,
    speedX := some 0, speedY := some 0, prevPosX := some 0, prevPosY := some 0,
    finPhase := some 0 }

/-- A ready cursor state holding fW, no particles and no stars. -/
def stW : CursorState :=
  { ready := true, fish := some fW, flying := [], waiting := [], nextParticleId := 0,
    particleSpawnTimer := 0, stars := [], pendingFirebaseStars := none,
    collisionEnabledAt := 0, isControllingFish := false, lastT := 0 }

/-- An environment whose raycast never hits and whose trigonometric
routines return zero. -/
def envW : Env := { intersectPlane := fun _ _ => none, cos := fun _ => 0, sin := fun _ => 0 }

/-- The constructor-default configuration of WebGLFishCursor. -/
def cfgW : Config :=
  { SMOOTHING := some 10, SCALE := some (4/5), PARTICLE_SPAWN_RATE := 8,
    STAR_GRID_SIZE := some 4, STAR_UI_LEFT_SHARE := none,
    STAR_FLOAT_RADIUS := 7/20, STAR_FLOAT_SPEED_MIN := 3/5,
    STAR_FLOAT_SPEED_MAX := 7/5, STAR_DEPTH_RANGE := 6/5,
    STAR_SPIN_SPEED_MIN := 3/10, STAR_SPIN_SPEED_MAX := 11/10 }

/-- Witness for singleplayer_controller_fallback at concrete inputs. -/
theorem singleplayer_controller_fallback_witness :
    resolveController false (some ⟨some 1, some 1, 0⟩) none 1 = some Controller.participant
    ∧ resolveController false none (some ⟨some 1, some 1, 0⟩) 1 = some Controller.host
    ∧ resolveController false none none 1 = none
    ∧ (loopTick envW cfgW false true none none 1 800 600 5 5 (0, 0, 0) true stW).1.fish
        = some fW := by
  refine ⟨?_, ?_, ?_, ?_⟩
  · exact (singleplayer_controller_fallback (some ⟨some 1, some 1, 0⟩) none 1 envW cfgW
      true 800 600 5 5 (0, 0, 0) true stW fW).1
      ⟨⟨some 1, some 1, 0⟩, rfl, by norm_num [INACTIVE_TIMEOUT_MS]⟩
  · exact (singleplayer_controller_fallback none (some ⟨some 1, some 1, 0⟩) 1 envW cfgW
      true 800 600 5 5 (0, 0, 0) true stW fW).2.1 ⟨some 1, some 1, 0⟩ rfl
      (by intro pp hpp; exact Option.noConfusion hpp)
  · exact (singleplayer_controller_fallback none none 1 envW cfgW
      true 800 600 5 5 (0, 0, 0) true stW fW).2.2.1 rfl rfl
  · exact ((singleplayer_controller_fallback none none 1 envW cfgW
      true 800 600 5 5 (0, 0, 0) true stW fW).2.2.2 rfl rfl).1

/-! ## Claim C4: reconciliation idempotence -/

/-- Every star produced by the creation pass carries an id from the
snapshot. -/
lemma spawnLoop_id_mem (cfg : Config) (vbx vby : ℚ) (rp : ℕ → RandParams)
    (curr : List (Option String)) :
    ∀ (k : ℕ) (fb : List FbEntry) (s : Star),
      s ∈ spawnLoop cfg vbx vby rp curr k fb → s.id ∈ fb.map (fun e => e.id) := by
  intro k fb
  induction fb generalizing k with
  | nil => intro s hs; simp [spawnLoop] at hs
  | cons e es ih =>
    intro s hs
    by_cases hmem : e.id ∈ curr
    · simp only [spawnLoop, if_pos hmem] at hs
      simp only [List.map_cons, List.mem_cons]
      exact Or.inr (ih k s hs)
    · simp only [spawnLoop, if_neg hmem, List.mem_cons] at hs
      rcases hs with h1 | h2
      · subst h1; simp [spawnStarAtCell]
      · simp only [List.map_cons, List.mem_cons]
        exact Or.inr (ih (k + 1) s h2)

/-- Every snapshot entry whose id is not yet local gets a star created for
it by the creation pass. -/
lemma spawnLoop_covers (cfg : Config) (vbx vby : ℚ) (rp : ℕ → RandParams)
    (curr : List (Option String)) :
    ∀ (k : ℕ) (fb : List FbEntry) (e : FbEntry), e ∈ fb → e.id ∉ curr →
      e.id ∈ (spawnLoop cfg vbx vby rp curr k fb).map (fun s => s.id) := by
  intro k fb
  induction fb generalizing k with
  | nil => intro e he; simp at he
  | cons e0 es ih =>
    intro e he hnot
    rcases List.mem_cons.mp he with rfl | hmem
    · simp only [spawnLoop, if_neg hnot, List.map_cons, List.mem_cons]
      exact Or.inl (by simp [spawnStarAtCell])
    · by_cases h0 : e0.id ∈ curr
      · simp only [spawnLoop, if_pos h0]
        exact ih k e hmem hnot
      · simp only [spawnLoop, if_neg h0, List.map_cons, List.mem_cons]
        exact Or.inr (ih (k + 1) e hmem hnot)

/-- When every snapshot id is already local, the creation pass creates
nothing. -/
lemma spawnLoop_nil (cfg : Config) (vbx vby : ℚ) (rp : ℕ → RandParams)
    (curr : List (Option String)) :
    ∀ (k : ℕ) (fb : List FbEntry), (∀ e ∈ fb, e.id ∈ curr) →
      spawnLoop cfg vbx vby rp curr k fb = [] := by
  intro k fb
  induction fb generalizing k with
  | nil => intro _; rfl
  | cons e es ih =>
    intro hall
    have he : e.id ∈ curr := hall e (by simp)
    simp only [spawnLoop, if_pos he]
    exact ih k (fun x hx => hall x (by simp [hx]))

/-- Unfolded form of a reconcile call made after initialization. -/
lemma sync_ready_eq (cfg : Config) (vbx vby : ℚ) (rp : ℕ → RandParams) (now : ℚ)
    (st : CursorState) (input : Option (List FbEntry)) (hr : st.ready = true) :
    (syncStarsFromFirebase cfg vbx vby rp now st input).1.stars
      = st.stars.filter (fun s => decide (s.id ∈ (input.getD []).map (fun e => e.id)))
        ++ spawnLoop cfg vbx vby rp (st.stars.map (fun s => s.id)) 0 (input.getD [])
    ∧ (syncStarsFromFirebase cfg vbx vby rp now st input).1.ready = true
    ∧ (syncStarsFromFirebase cfg vbx vby rp now st input).2.1
      = (spawnLoop cfg vbx vby rp (st.stars.map (fun s => s.id)) 0 (input.getD [])).length
    ∧ (syncStarsFromFirebase cfg vbx vby rp now st input).2.2
      = st.stars.length
        - (st.stars.filter (fun s => decide (s.id ∈ (input.getD []).map (fun e => e.id)))).length
    ∧ (syncStarsFromFirebase cfg vbx vby rp now st input).1.collisionEnabledAt = now + 500 := by
  simp [syncStarsFromFirebase, hr]

/-- The core of idempotence: once every local id is in the snapshot and
every snapshot id is local, the removal pass keeps everything and the
creation pass creates nothing. -/
lemma idempotent_core (cfg : Config) (vbx vby : ℚ) (rp2 : ℕ → RandParams)
    (stars1 : List Star) (fb : List FbEntry)
    (hA : ∀ s ∈ stars1, s.id ∈ fb.map (fun e => e.id))
    (hB : ∀ e ∈ fb, e.id ∈ stars1.map (fun s => s.id)) :
    stars1.filter (fun s => decide (s.id ∈ fb.map (fun e => e.id))) = stars1
    ∧ spawnLoop cfg vbx vby rp2 (stars1.map (fun s => s.id)) 0 fb = [] := by
  constructor
  · exact List.filter_eq_self.mpr (fun s hs => decide_eq_true (hA s hs))
  · exact spawnLoop_nil cfg vbx vby rp2 _ 0 fb hB

/-- C4: reconciliation is idempotent.  Calling syncStarsFromFirebase with
a snapshot and then calling it again with the same snapshot leaves the
local star list identical after the second call, and the second call
creates zero stars and destroys zero stars.  This holds for every state,
before as well as after initialization, and for every choice of random
draws and clocks in the two calls. -/
theorem reconcile_idempotent (cfg : Config) (vbx vby : ℚ) (rp rp2 : ℕ → RandParams)
    (now now2 : ℚ) (st : CursorState) (input : Option (List FbEntry)) :
    (syncStarsFromFirebase cfg vbx vby rp2 now2
        (syncStarsFromFirebase cfg vbx vby rp now st input).1 input).1.stars
      = (syncStarsFromFirebase cfg vbx vby rp now st input).1.stars
    ∧ (syncStarsFromFirebase cfg vbx vby rp2 now2
        (syncStarsFromFirebase cfg vbx vby rp now st input).1 input).2.1 = 0
    ∧ (syncStarsFromFirebase cfg vbx vby rp2 now2
        (syncStarsFromFirebase cfg vbx vby rp now st input).1 input).2.2 = 0 := by
  cases hr : st.ready with
  | false => simp [syncStarsFromFirebase, hr]
  | true =>
    obtain ⟨hstars1, hready1, _, _, _⟩ := sync_ready_eq cfg vbx vby rp now st input hr
    obtain ⟨hstars2, _, hcre2, hdes2, _⟩ :=
      sync_ready_eq cfg vbx vby rp2 now2
        (syncStarsFromFirebase cfg vbx vby rp now st input).1 input hready1
    have hA : ∀ s ∈ (syncStarsFromFirebase cfg vbx vby rp now st input).1.stars,
        s.id ∈ (input.getD []).map (fun e => e.id) := by
      intro s hs
      rw [hstars1] at hs
      rcases List.mem_append.mp hs with hk | hsp
      · have := List.of_mem_filter hk
        exact of_decide_eq_true this
      · exact spawnLoop_id_mem cfg vbx vby rp _ 0 _ s hsp
    have hB : ∀ e ∈ (input.getD []), e.id ∈
        ((syncStarsFromFirebase cfg vbx vby rp now st input).1.stars).map (fun s => s.id) := by
      intro e he
      rw [hstars1, List.map_append, List.mem_append]
      by_cases hc : e.id ∈ st.stars.map (fun s => s.id)
      · left
        obtain ⟨s, hsmem, hsid⟩ := List.mem_map.mp hc
        refine List.mem_map.mpr ⟨s, List.mem_filter.mpr ⟨hsmem, decide_eq_true ?_⟩, hsid⟩
        rw [hsid]
        exact List.mem_map.mpr ⟨e, he, rfl⟩
      · right
        exact spawnLoop_covers cfg vbx vby rp _ 0 _ e he hc
    obtain ⟨hfilt, hspawn⟩ :=
      idempotent_core cfg vbx vby rp2
        (syncStarsFromFirebase cfg vbx vby rp now st input).1.stars (input.getD []) hA hB
    refine ⟨?_, ?_, ?_⟩
    · rw [hstars2, hfilt, hspawn, List.append_nil]
    · rw [hcre2, hspawn]; rfl
    · rw [hdes2, hfilt, Nat.sub_self]

/-! ## Claim C6: the grace deadline is re-armed unconditionally -/

/-- A fixed stream of random draws. -/
def rpW : ℕ → RandParams := fun _ => ⟨0, 0, 0, 0, 0⟩

/-- A local star with id a sitting at the origin with no float motion. -/
def starB : Star :=
  { id := some "a", row := some 0, col := some 0, baseX := some 0, baseY := some 0,
    radius := 0, speed := 0, depth := 0, spinSpeed := 0, phase := 0 }

/-- A ready state already holding exactly the star of the snapshot below,
with the grace deadline at 0. -/
def stC6 : CursorState := { stW with stars := [starB] }

/-- A snapshot matching the local set of stC6. -/
def fbC6 : List FbEntry := [{ id := some "a", row := some 0, col := some 0 }]

/-- C6 counterexample: the claim says a reconcile call whose snapshot
matches the current local set leaves the grace deadline unchanged, but
syncStarsFromFirebase re-arms the deadline unconditionally.  Here the
snapshot matches the local set exactly (nothing is created or destroyed
and the star list is unchanged), yet the deadline moves from 0 to
now + 500 = 1500. -/
theorem reconcile_rearms_on_unchanged_set :
    (syncStarsFromFirebase cfgW 5 5 rpW 1000 stC6 (some fbC6)).1.stars = stC6.stars
    ∧ (syncStarsFromFirebase cfgW 5 5 rpW 1000 stC6 (some fbC6)).2.1 = 0
    ∧ (syncStarsFromFirebase cfgW 5 5 rpW 1000 stC6 (some fbC6)).2.2 = 0
    ∧ stC6.collisionEnabledAt = 0
    ∧ (syncStarsFromFirebase cfgW 5 5 rpW 1000 stC6 (some fbC6)).1.collisionEnabledAt = 1500
    ∧ (1500 : ℚ) ≠ 0 := by
  refine ⟨?_, ?_, ?_, rfl, ?_, by norm_num⟩
  · simp [syncStarsFromFirebase, stC6, stW, fbC6, spawnLoop, starB]
  · simp [syncStarsFromFirebase, stC6, stW, fbC6, spawnLoop, starB]
  · simp [syncStarsFromFirebase, stC6, stW, fbC6, spawnLoop, starB]
  · simp [syncStarsFromFirebase, stC6, stW, fbC6]
    norm_num

/-- C6 amended: every reconcile call made after initialization re-arms
the grace deadline to now + 500, whether or not the reconciliation
changed the local collectible set. -/
theorem reconcile_always_rearms_grace (cfg : Config) (vbx vby : ℚ)
    (rp : ℕ → RandParams) (now : ℚ) (st : CursorState)
    (input : Option (List FbEntry)) (hr : st.ready = true) :
    (syncStarsFromFirebase cfg vbx vby rp now st input).1.collisionEnabledAt = now + 500 :=
  (sync_ready_eq cfg vbx vby rp now st input hr).2.2.2.2

/-- Witness for reconcile_always_rearms_grace at concrete inputs. -/
theorem reconcile_always_rearms_grace_witness :
    (syncStarsFromFirebase cfgW 5 5 rpW 1000 stC6 (some fbC6)).1.collisionEnabledAt
      = 1000 + 500 :=
  reconcile_always_rearms_grace cfgW 5 5 rpW 1000 stC6 (some fbC6) rfl

/-! ## Claim C9: malformed snapshot entries are not validated -/

/-- C9 counterexample: the claim says a snapshot entry missing its id, row
and col is ignored, with no local collectible created for it; but
reconciling the empty local set against a snapshot holding exactly one
such malformed entry creates one local star, whose id is undefined. -/
theorem reconcile_creates_for_malformed_entry :
    (syncStarsFromFirebase cfgW 5 5 rpW 0 stW
        (some [{ id := none, row := none, col := none }])).1.stars.length = 1
    ∧ (syncStarsFromFirebase cfgW 5 5 rpW 0 stW
        (some [{ id := none, row := none, col := none }])).1.stars.map (fun s => s.id)
      = [none] := by
  constructor <;> simp [syncStarsFromFirebase, stW, spawnLoop, spawnStarAtCell]

/-- C9 amended: reconciliation performs no validation of snapshot
entries.  Any entry (malformed ones with undefined id, row or col
included) whose id is not already present locally gets a local
collectible created for it, and every prior local collectible whose id
appears in the snapshot is retained; the call is total, so it never
throws. -/
theorem reconcile_no_validation (cfg : Config) (vbx vby : ℚ) (rp : ℕ → RandParams)
    (now : ℚ) (st : CursorState) (input : Option (List FbEntry))
    (hr : st.ready = true) (e : FbEntry) (he : e ∈ input.getD [])
    (hnew : e.id ∉ st.stars.map (fun s => s.id)) :
    (∃ s ∈ (syncStarsFromFirebase cfg vbx vby rp now st input).1.stars, s.id = e.id)
    ∧ ∀ s ∈ st.stars, s.id ∈ (input.getD []).map (fun e2 => e2.id) →
        s ∈ (syncStarsFromFirebase cfg vbx vby rp now st input).1.stars := by
  obtain ⟨hstars, _, _, _, _⟩ := sync_ready_eq cfg vbx vby rp now st input hr
  constructor
  · have hc := spawnLoop_covers cfg vbx vby rp (st.stars.map (fun s => s.id)) 0
      (input.getD []) e he hnew
    obtain ⟨s, hsmem, hsid⟩ := List.mem_map.mp hc
    refine ⟨s, ?_, hsid⟩
    rw [hstars]
    exact List.mem_append_right _ hsmem
  · intro s hs hid
    rw [hstars]
    exact List.mem_append_left _ (List.mem_filter.mpr ⟨hs, decide_eq_true hid⟩)

/-- Witness for reconcile_no_validation: the malformed entry of the
counterexample state gets a star with undefined id created for it. -/
theorem reconcile_no_validation_witness :
    (∃ s ∈ (syncStarsFromFirebase cfgW 5 5 rpW 0 stW
        (some [{ id := none, row := none, col := none }])).1.stars, s.id = none)
    ∧ ∀ s ∈ stW.stars,
        s.id ∈ ([{ id := none, row := none, col := none }] : List FbEntry).map (fun e2 => e2.id) →
        s ∈ (syncStarsFromFirebase cfgW 5 5 rpW 0 stW
          (some [{ id := none, row := none, col := none }])).1.stars := by
  have h := reconcile_no_validation cfgW 5 5 rpW 0 stW
    (some [{ id := none, row := none, col := none }]) rfl
    { id := none, row := none, col := none } (by simp) (by simp [stW])
  exact h

/-! ## Claim C1: collision handling per tick -/

/-- Closed form of the backward collision sweep of _updateStars: the
survivors are the non-colliding stars in order; the released renderables
are the colliding stars (in backward traversal order); and the emitted
events are exactly those ids when the authority bit is set and a callback
is installed, and nothing otherwise. -/
lemma updateStarsGo_eq (env : Env) (time now deadline : ℚ)
    (fish : Option (Option ℚ × Option ℚ)) (auth hasCb : Bool) :
    ∀ stars : List Star,
      updateStarsGo env time now deadline fish auth hasCb stars
        = (stars.filter (fun s => !(starCollides env time now deadline fish s)),
           (if auth && hasCb then
             ((stars.filter (fun s => starCollides env time now deadline fish s)).reverse).map
               (fun s => s.id)
            else []),
           ((stars.filter (fun s => starCollides env time now deadline fish s)).reverse).map
             (fun s => s.id)) := by
  intro stars
  induction stars with
  | nil => cases hab : (auth && hasCb) <;> simp [updateStarsGo]
  | cons s rest ih =>
    cases hab : (auth && hasCb) <;>
      by_cases hc : starCollides env time now deadline fish s = true <;>
        simp [updateStarsGo, ih, hc, hab]

/-- When no fish exists or the grace deadline has not passed, no star
collides. -/
lemma starCollides_false (env : Env) (time now deadline : ℚ)
    (fish : Option (Option ℚ × Option ℚ)) (s : Star)
    (h : fish = none ∨ ¬ deadline < now) :
    starCollides env time now deadline fish s = false := by
  rcases h with rfl | hlt
  · rfl
  · cases fish with
    | none => rfl
    | some fp =>
      obtain ⟨fx, fy⟩ := fp
      simp [starCollides, hlt]

/-- C1 amended: the collision check runs at most once per collectible per
tick, and only when a creature exists and the current time is past the
grace deadline.  A detected collision removes the collectible from the
local list and releases its renderable regardless of the collision
authority, and exactly one collected(id) event is emitted for it
precisely when the local collision-authority bit is true and a callback
is installed; hence the onCollected callback is invoked only from a
process whose authority bit is true at that moment. -/
theorem updateStars_tick_characterization (env : Env) (time now deadline : ℚ)
    (fish : Option (Option ℚ × Option ℚ)) (auth hasCb : Bool) (stars : List Star) :
    ((updateStars env time now deadline fish auth hasCb stars).1
      = stars.filter (fun s => !(starCollides env time now deadline fish s)))
    ∧ ((updateStars env time now deadline fish auth hasCb stars).2.2
      = ((stars.filter (fun s => starCollides env time now deadline fish s)).reverse).map
          (fun s => s.id))
    ∧ ((updateStars env time now deadline fish auth hasCb stars).2.1
      = (if auth && hasCb then
          ((stars.filter (fun s => starCollides env time now deadline fish s)).reverse).map
            (fun s => s.id)
         else []))
    ∧ ((fish = none ∨ ¬ deadline < now) →
        (updateStars env time now deadline fish auth hasCb stars).1 = stars
        ∧ (updateStars env time now deadline fish auth hasCb stars).2.1 = []
        ∧ (updateStars env time now deadline fish auth hasCb stars).2.2 = []) := by
  have hgo := updateStarsGo_eq env time now deadline fish auth hasCb stars
  have hup : updateStars env time now deadline fish auth hasCb stars
      = updateStarsGo env time now deadline fish auth hasCb stars := by
    cases stars with
    | nil => cases hab : (auth && hasCb) <;> simp [updateStars, updateStarsGo]
    | cons s rest => rfl
  refine ⟨?_, ?_, ?_, ?_⟩
  · rw [hup, hgo]
  · rw [hup, hgo]
  · rw [hup, hgo]
  · intro h
    have hall : ∀ s ∈ stars, starCollides env time now deadline fish s = false :=
      fun s _ => starCollides_false env time now deadline fish s h
    rw [hup, hgo]
    refine ⟨?_, ?_, ?_⟩
    · simp only []
      exact List.filter_eq_self.mpr (fun s hs => by simp [hall s hs])
    · have : stars.filter (fun s => starCollides env time now deadline fish s) = [] :=
        List.filter_eq_nil_iff.mpr (fun s hs => by simp [hall s hs])
      simp [this]
    · have : stars.filter (fun s => starCollides env time now deadline fish s) = [] :=
        List.filter_eq_nil_iff.mpr (fun s hs => by simp [hall s hs])
      simp [this]

/-- Witness for updateStars_tick_characterization: with no fish the tick
leaves the star list untouched and emits nothing. -/
theorem updateStars_tick_characterization_witness :
    (updateStars envW 0 1000 0 none true true [starB]).1 = [starB]
    ∧ (updateStars envW 0 1000 0 none true true [starB]).2.1 = []
    ∧ (updateStars envW 0 1000 0 none true true [starB]).2.2 = [] :=
  (updateStars_tick_characterization envW 0 1000 0 none true true [starB]).2.2.2
    (Or.inl rfl)

/-- C1 counterexample: the claim says the collision check runs only when
the process holds local collision authority and that a detection emits
exactly one collected(id) event.  Here the authority bit is false, the
grace deadline has passed and the fish overlaps the star: the check still
runs, the star is removed from the local list and its renderable is
released, yet zero events are emitted. -/
theorem updateStars_removal_without_authority :
    updateStars envW 0 1000 0 (some (some 0, some 0)) false true [starB]
      = ([], [], [some "a"]) := by
  have hc : starCollides envW 0 1000 0 (some (some 0, some 0)) starB = true := by
    simp only [starCollides, starDisplayPos, starB, envW, oAdd]
    norm_num
  simp only [updateStars, updateStarsGo, hc, if_true, Bool.false_and, if_false,
    List.nil_append, Bool.and_self]
  simp [starB]

/-! ## Claim C7: particle-pool conservation -/

/-- The identities of every particle held by the pool, active list first. -/
def poolIds (st : PoolState) : List ℕ := (st.flying ++ st.waiting).map (fun p => p.pid)

/-- Total number of particles held by the pool. -/
def poolCount (st : PoolState) : ℕ := st.flying.length + st.waiting.length

/-- The pool invariant: no particle instance is in both lists (or twice in
one list), and every held identity was allocated (is below the
allocation counter). -/
def PoolInv (st : PoolState) : Prop :=
  (poolIds st).Nodup ∧ ∀ i ∈ poolIds st, i < st.nextId

/-- popLast returns the decomposition of its input. -/
lemma popLast_some {α : Type} :
    ∀ (l l' : List α) (a : α), popLast l = some (l', a) → l = l' ++ [a] := by
  intro l
  induction l with
  | nil => intro l' a h; exact Option.noConfusion h
  | cons x rest ih =>
    intro l' a h
    cases rest with
    | nil =>
      simp only [popLast, Option.some.injEq, Prod.mk.injEq] at h
      obtain ⟨h1, h2⟩ := h
      subst h1; subst h2; rfl
    | cons y rest2 =>
      simp only [popLast] at h
      cases hrec : popLast (y :: rest2) with
      | none => rw [hrec] at h; exact Option.noConfusion h
      | some pr =>
        obtain ⟨l2, q⟩ := pr
        rw [hrec] at h
        simp only [Option.some.injEq, Prod.mk.injEq] at h
        obtain ⟨h1, h2⟩ := h
        rw [← h1, ← h2, List.cons_append, ← ih l2 q hrec]

/-- popLast fails only on the empty list. -/
lemma popLast_none {α : Type} : ∀ l : List α, popLast l = none → l = [] := by
  intro l
  induction l with
  | nil => intro _; rfl
  | cons x rest ih =>
    intro h
    cases rest with
    | nil => exact Option.noConfusion h
    | cons y rest2 =>
      simp only [popLast] at h
      cases hrec : popLast (y :: rest2) with
      | none => exact absurd (ih hrec) (by simp)
      | some pr => rw [hrec] at h; cases pr with | mk l2 q => exact Option.noConfusion h

/-- Unfolded form of a spawn that reuses the last pooled particle. -/
lemma spawnParticle_pop (vbx vby : ℚ) (r : ℚ × ℚ × ℚ) (st : PoolState)
    (rest : List Particle) (pl : Particle)
    (hpop : popLast st.waiting = some (rest, pl)) :
    spawnParticle vbx vby r st
      = { flying := st.flying ++ [{ pl with
            posX := vbx, posY := -vby + r.1 * vby * 2,
            posZ := (r.2.1 - 1/2) * 2, scale := 3/20 + r.2.2 * (3/5) }],
          waiting := rest, nextId := st.nextId } := by
  simp [spawnParticle, getParticle, hpop]

/-- Unfolded form of a spawn that allocates a fresh particle. -/
lemma spawnParticle_fresh (vbx vby : ℚ) (r : ℚ × ℚ × ℚ) (st : PoolState)
    (hpop : popLast st.waiting = none) :
    spawnParticle vbx vby r st
      = { flying := st.flying ++ [{ createParticle st.nextId with
            posX := vbx, posY := -vby + r.1 * vby * 2,
            posZ := (r.2.1 - 1/2) * 2, scale := 3/20 + r.2.2 * (3/5) }],
          waiting := st.waiting, nextId := st.nextId + 1 } := by
  simp [spawnParticle, getParticle, hpop]

/-- The update sweep permutes the held particle identities: each particle
goes to exactly one of the two output lists and none is destroyed. -/
lemma updateParticlesGo_ids (speedX vbx : ℚ) :
    ∀ l : List Particle,
      (((updateParticlesGo speedX vbx l).1 ++ (updateParticlesGo speedX vbx l).2).map
        (fun p => p.pid)).Perm (l.map (fun p => p.pid)) := by
  intro l
  induction l with
  | nil => simp [updateParticlesGo]
  | cons p rest ih =>
    by_cases hcross : (stepParticle speedX p).posX < -vbx - 6/5
    · simp only [updateParticlesGo, if_pos hcross]
      have h1 : ((updateParticlesGo speedX vbx rest).1 ++
            ((updateParticlesGo speedX vbx rest).2 ++ [stepParticle speedX p])).map
            (fun q => q.pid)
          = (((updateParticlesGo speedX vbx rest).1 ++
              (updateParticlesGo speedX vbx rest).2).map (fun q => q.pid))
            ++ [(stepParticle speedX p).pid] := by
        simp [List.map_append, List.append_assoc]
      rw [h1]
      have h2 : (stepParticle speedX p).pid = p.pid := rfl
      rw [h2, List.map_cons]
      exact (List.perm_append_singleton _ _).trans (ih.cons p.pid)
    · simp only [updateParticlesGo, if_neg hcross, List.cons_append, List.map_cons]
      have h2 : (stepParticle speedX p).pid = p.pid := rfl
      rw [h2]
      exact ih.cons p.pid

/-- The identities held after an update sweep are a permutation of those
held before, and the allocation counter is unchanged. -/
lemma updateParticles_ids (speedX vbx : ℚ) (st : PoolState) :
    (poolIds (updateParticles speedX vbx st)).Perm (poolIds st)
    ∧ (updateParticles speedX vbx st).nextId = st.nextId := by
  constructor
  · have hgo := updateParticlesGo_ids speedX vbx st.flying
    simp only [updateParticles, poolIds, List.map_append]
    refine List.Perm.trans (List.Perm.append_left _ List.perm_append_comm) ?_
    rw [← List.append_assoc]
    exact List.Perm.append (by simpa [List.map_append] using hgo) (List.Perm.refl _)
  · simp [updateParticles]

/-- C7: the pool operations preserve the hard invariant that every
particle instance is held by exactly one of the two lists.  Spawning
(which embeds acquire) reuses a pooled particle when the free list is
non-empty and allocates a fresh one otherwise, so the total count never
decreases; the update sweep permutes the held identities (a particle
crossing the trailing boundary moves to the free list instead of being
destroyed) and keeps the total count constant. -/
theorem particle_pool_invariant (st : PoolState) (vbx vby speedX : ℚ)
    (r : ℚ × ℚ × ℚ) (hInv : PoolInv st) :
    (PoolInv (spawnParticle vbx vby r st)
      ∧ poolCount (spawnParticle vbx vby r st)
          = poolCount st + (if st.waiting = [] then 1 else 0)
      ∧ poolCount st ≤ poolCount (spawnParticle vbx vby r st))
    ∧ (PoolInv (updateParticles speedX vbx st)
      ∧ (poolIds (updateParticles speedX vbx st)).Perm (poolIds st)
      ∧ poolCount (updateParticles speedX vbx st) = poolCount st) := by
  obtain ⟨hnd, hbound⟩ := hInv
  constructor
  · -- spawnParticle
    cases hpop : popLast st.waiting with
    | some pr =>
      obtain ⟨rest, pl⟩ := pr
      have hw : st.waiting = rest ++ [pl] := popLast_some st.waiting rest pl hpop
      have hwne : st.waiting ≠ [] := by simp [hw]
      have hsp := spawnParticle_pop vbx vby r st rest pl hpop
      have hperm : (poolIds (spawnParticle vbx vby r st)).Perm (poolIds st) := by
        rw [hsp]
        simp only [poolIds, hw, List.map_append, List.map_cons, List.map_nil]
        rw [List.append_assoc]
        exact List.Perm.append_left _ List.perm_append_comm
      refine ⟨⟨hperm.nodup_iff.mpr hnd, ?_⟩, ?_, ?_⟩
      · intro i hi
        have hmem : i ∈ poolIds st := hperm.mem_iff.mp hi
        have hlt := hbound i hmem
        rw [hsp]
        exact hlt
      · rw [hsp]
        simp [poolCount, hw]
        omega
      · rw [hsp]
        simp [poolCount, hw]
        omega
    | none =>
      have hw : st.waiting = [] := popLast_none st.waiting hpop
      have hsp := spawnParticle_fresh vbx vby r st hpop
      have hids : poolIds (spawnParticle vbx vby r st)
          = (st.flying.map (fun p => p.pid)) ++ [st.nextId] := by
        rw [hsp]
        simp [poolIds, hw, createParticle]
      have hold : poolIds st = st.flying.map (fun p => p.pid) := by
        simp [poolIds, hw]
      refine ⟨⟨?_, ?_⟩, ?_, ?_⟩
      · rw [hids]
        rw [hold] at hnd hbound
        refine List.Nodup.append hnd (List.nodup_singleton _) ?_
        intro i hi hj
        simp only [List.mem_singleton] at hj
        subst hj
        exact absurd (hbound _ hi) (lt_irrefl _)
      · intro i hi
        rw [hids] at hi
        have hnext : (spawnParticle vbx vby r st).nextId = st.nextId + 1 := by
          rw [hsp]
        rw [hnext]
        rcases List.mem_append.mp hi with hold2 | hsing
        · rw [hold] at hbound
          exact Nat.lt_succ_of_lt (hbound i hold2)
        · simp only [List.mem_singleton] at hsing
          subst hsing
          exact Nat.lt_succ_self _
      · rw [hsp]
        simp [poolCount, hw]
      · rw [hsp]
        simp [poolCount, hw]
  · -- updateParticles
    obtain ⟨hperm, hnext⟩ := updateParticles_ids speedX vbx st
    refine ⟨⟨hperm.nodup_iff.mpr hnd, ?_⟩, hperm, ?_⟩
    · intro i hi
      have hmem : i ∈ poolIds st := hperm.mem_iff.mp hi
      rw [hnext]
      exact hbound i hmem
    · have hlen := hperm.length_eq
      simp only [poolIds, List.length_map, List.length_append] at hlen
      simp only [poolCount]
      omega

/-- A pool holding one active and one free particle, with both identities
allocated. -/
def stPool : PoolState :=
  { flying := [createParticle 0], waiting := [createParticle 1], nextId := 2 }

/-- Witness for particle_pool_invariant at a concrete pool. -/
theorem particle_pool_invariant_witness :
    PoolInv stPool
    ∧ ((PoolInv (spawnParticle 5 5 (0, 0, 0) stPool)
        ∧ poolCount (spawnParticle 5 5 (0, 0, 0) stPool)
            = poolCount stPool + (if stPool.waiting = [] then 1 else 0)
        ∧ poolCount stPool ≤ poolCount (spawnParticle 5 5 (0, 0, 0) stPool))
      ∧ (PoolInv (updateParticles 0 5 stPool)
        ∧ (poolIds (updateParticles 0 5 stPool)).Perm (poolIds stPool)
        ∧ poolCount (updateParticles 0 5 stPool) = poolCount stPool)) := by
  have hInv : PoolInv stPool := by
    constructor
    · simp [poolIds, stPool, createParticle]
    · intro i hi
      have hn : stPool.nextId = 2 := rfl
      rw [hn]
      simp only [poolIds, stPool, createParticle, List.map_append, List.map_cons,
        List.map_nil] at hi
      rcases List.mem_append.mp hi with h1 | h2
      · simp at h1; omega
      · simp at h2; omega
  exact ⟨hInv, particle_pool_invariant stPool 5 5 0 (0, 0, 0) hInv⟩

/-! ## Claim C10: GameService.generateRandomStars -/

/-- validateGridSize always lands in 1..4. -/
lemma validateGridSize_bounds (g : Option ℚ) :
    1 ≤ validateGridSize g ∧ validateGridSize g ≤ 4 := by
  cases g with
  | none => constructor <;> simp [validateGridSize]
  | some q =>
    simp only [validateGridSize]
    have hlo : (1 : ℤ) ≤ max 1 (min 4 (jsRound q)) := le_max_left _ _
    have hhi : max 1 (min 4 (jsRound q)) ≤ 4 := max_le (by norm_num) (min_le_left _ _)
    omega

/-- validateGridSize is the identity on already-valid sizes. -/
lemma validateGridSize_cast (n : ℕ) (h1 : 1 ≤ n) (h4 : n ≤ 4) :
    validateGridSize (some (n : ℚ)) = n := by
  interval_cases n <;> norm_num [validateGridSize, jsRound] <;> omega

/-- The star count formula in terms of the validated size. -/
lemma starCount_eq (n : ℕ) (h1 : 1 ≤ n) (h4 : n ≤ 4) :
    calculateStarCount (some (n : ℚ)) = max 1 (Int.toNat ⌈((n * n : ℕ) : ℚ) / 2⌉) := by
  simp only [calculateStarCount, validateGridSize_cast n h1 h4]

/-- Half the cells rounded up never exceeds the number of cells. -/
lemma starCount_le (n : ℕ) (h1 : 1 ≤ n) (h4 : n ≤ 4) :
    calculateStarCount (some (n : ℚ)) ≤ n * n := by
  interval_cases n
  · rw [starCount_eq 1 (by norm_num) (by norm_num)]
    have hc : (⌈((1 * 1 : ℕ) : ℚ) / 2⌉ : ℤ) = 1 := by rw [Int.ceil_eq_iff] <;> norm_num
    rw [hc]; decide
  · rw [starCount_eq 2 (by norm_num) (by norm_num)]
    have hc : (⌈((2 * 2 : ℕ) : ℚ) / 2⌉ : ℤ) = 2 := by rw [Int.ceil_eq_iff] <;> norm_num
    rw [hc]; decide
  · rw [starCount_eq 3 (by norm_num) (by norm_num)]
    have hc : (⌈((3 * 3 : ℕ) : ℚ) / 2⌉ : ℤ) = 5 := by rw [Int.ceil_eq_iff] <;> norm_num
    rw [hc]; decide
  · rw [starCount_eq 4 (by norm_num) (by norm_num)]
    have hc : (⌈((4 * 4 : ℕ) : ℚ) / 2⌉ : ℤ) = 8 := by rw [Int.ceil_eq_iff] <;> norm_num
    rw [hc]; decide

/-- The grid cells are the product of two ranges. -/
lemma buildCells_length (n : ℕ) : (buildCells n).length = n * n := by
  have h : buildCells n = List.range n ×ˢ List.range n := rfl
  rw [h, List.length_product, List.length_range]

/-- No grid cell appears twice. -/
lemma buildCells_nodup (n : ℕ) : (buildCells n).Nodup := by
  have h : buildCells n = List.range n ×ˢ List.range n := rfl
  rw [h]
  exact List.Nodup.product (List.nodup_range n) (List.nodup_range n)

/-- Membership in the cell list is exactly the row and column bounds. -/
lemma buildCells_mem (n : ℕ) (c : ℕ × ℕ) : c ∈ buildCells n ↔ c.1 < n ∧ c.2 < n := by
  cases c with
  | mk r co => simp [buildCells]

/-- The destructuring swap permutes the list (counting argument). -/
lemma listSwap_perm {α : Type} [DecidableEq α] (l : List α) (i j : ℕ) :
    (listSwap l i j).Perm l := by
  unfold listSwap
  cases hi : l[i]? with
  | none => exact List.Perm.refl l
  | some a =>
    cases hj : l[j]? with
    | none => exact List.Perm.refl l
    | some b =>
      obtain ⟨hil, hia⟩ := List.getElem?_eq_some.mp hi
      obtain ⟨hjl, hjb⟩ := List.getElem?_eq_some.mp hj
      have hjl2 : j < (l.set i b).length := by simpa using hjl
      rw [List.perm_iff_count]
      intro x
      rw [List.count_set a x (l.set i b) j hjl2, List.count_set b x l i hil]
      have hgj : (l.set i b)[j] = b := by
        by_cases hij : i = j
        · subst hij
          exact List.getElem_set_self hjl2
        · exact (List.getElem_set_ne hij hjl2).trans hjb
      rw [hgj, hia]
      have hca : (if (a == x) = true then 1 else 0) ≤ l.count x := by
        by_cases hax : (a == x) = true
        · simp only [hax, if_true]
          have hxl : x ∈ l := by
            have hal : a ∈ l := hia ▸ List.getElem_mem hil
            rwa [← (beq_iff_eq.mp hax)]
          exact List.count_pos_iff.mpr hxl
        · simp [hax]
      omega

/-- The Fisher-Yates loop permutes the list for every draw sequence. -/
lemma fyGo_perm {α : Type} [DecidableEq α] (rand : ℕ → ℕ) :
    ∀ (n : ℕ) (l : List α), (fyGo rand n l).Perm l := by
  intro n
  induction n with
  | zero => intro l; exact List.Perm.refl l
  | succ i ih =>
    intro l
    exact (ih _).trans (listSwap_perm l (i + 1) (rand (i + 1) % (i + 2)))

/-- The whole shuffle permutes the list. -/
lemma fisherYates_perm {α : Type} [DecidableEq α] (rand : ℕ → ℕ) (l : List α) :
    (fisherYates rand l).Perm l :=
  fyGo_perm rand _ l

/-- Core facts about the generated stars, for a validated size n. -/
lemma generateRandomStars_core (rand : ℕ → ℕ) (idGen : ℕ → ℕ → String)
    (gridSize : Option ℚ) (n : ℕ)
    (hn : validateGridSize gridSize = n) (h1 : 1 ≤ n) (h4 : n ≤ 4) :
    (generateRandomStars rand idGen gridSize).length = calculateStarCount (some (n : ℚ))
    ∧ ((generateRandomStars rand idGen gridSize).map (fun s => (s.row, s.col))).Nodup
    ∧ ∀ s ∈ generateRandomStars rand idGen gridSize, s.row < n ∧ s.col < n := by
  have hperm : (fisherYates rand (buildCells n)).Perm (buildCells n) :=
    fisherYates_perm rand (buildCells n)
  have hgen : generateRandomStars rand idGen gridSize
      = ((fisherYates rand (buildCells n)).take (calculateStarCount (some (n : ℚ)))).map
          (fun c => ({ id := idGen c.1 c.2, row := c.1, col := c.2 } : GStar)) := by
    simp only [generateRandomStars, hn]
  refine ⟨?_, ?_, ?_⟩
  · rw [hgen, List.length_map, List.length_take, hperm.length_eq, buildCells_length]
    exact min_eq_left (starCount_le n h1 h4)
  · rw [hgen, List.map_map]
    have hcomp : ((fun s : GStar => (s.row, s.col)) ∘
        (fun c : ℕ × ℕ => ({ id := idGen c.1 c.2, row := c.1, col := c.2 } : GStar)))
        = id := funext fun c => rfl
    rw [hcomp, List.map_id]
    exact ((List.take_sublist _ _)).nodup (hperm.nodup_iff.mpr (buildCells_nodup n))
  · intro s hs
    rw [hgen] at hs
    obtain ⟨c, hc, rfl⟩ := List.mem_map.mp hs
    have hmem : c ∈ buildCells n := hperm.mem_iff.mp (List.mem_of_mem_take hc)
    exact (buildCells_mem n c).mp hmem

/-- C10: generateRandomStars first clamps the grid size to an integer n in
1..4 (4 when non-finite) and returns exactly max(1, ceil(n * n / 2)) star
objects whose cells are pairwise distinct and lie inside the n by n grid,
for every random draw sequence and id generator. -/
theorem generateRandomStars_spec (rand : ℕ → ℕ) (idGen : ℕ → ℕ → String)
    (gridSize : Option ℚ) :
    (gridSize = none → validateGridSize gridSize = 4)
    ∧ 1 ≤ validateGridSize gridSize
    ∧ validateGridSize gridSize ≤ 4
    ∧ (generateRandomStars rand idGen gridSize).length
        = max 1 (Int.toNat ⌈((validateGridSize gridSize * validateGridSize gridSize : ℕ) : ℚ) / 2⌉)
    ∧ ((generateRandomStars rand idGen gridSize).map (fun s => (s.row, s.col))).Nodup
    ∧ ∀ s ∈ generateRandomStars rand idGen gridSize,
        s.row < validateGridSize gridSize ∧ s.col < validateGridSize gridSize := by
  obtain ⟨h1, h4⟩ := validateGridSize_bounds gridSize
  obtain ⟨hlen, hnodup, hbounds⟩ :=
    generateRandomStars_core rand idGen gridSize (validateGridSize gridSize) rfl h1 h4
  refine ⟨fun h => by rw [h]; rfl, h1, h4, ?_, hnodup, hbounds⟩
  rw [hlen, starCount_eq (validateGridSize gridSize) h1 h4]

/-! ## Claim C8: non-finite pointer samples and the creature pose -/

/-- The creature pose (the group transform: position, rotation, scale)
holds only finite numbers. -/
def PoseFinite (f : Fish) : Prop :=
  f.posX.isSome = true ∧ f.posY.isSome = true
    ∧ f.rotX.isSome = true ∧ f.rotY.isSome = true ∧ f.rotZ.isSome = true
    ∧ f.scaleX.isSome = true ∧ f.scaleY.isSome = true ∧ f.scaleZ.isSome = true

/-- Every pose component written by the integrator is finite, whatever
the inputs. -/
lemma updateFish_pose (cfg : Config) (wIn hIn : ℚ) (f : Fish) :
    PoseFinite (updateFish cfg wIn hIn f) := by
  simp [updateFish, PoseFinite]

/-- The integrator never touches the remembered pointer sample. -/
lemma updateFish_pointer (cfg : Config) (wIn hIn : ℚ) (f : Fish) :
    (updateFish cfg wIn hIn f).pointerX = f.pointerX
    ∧ (updateFish cfg wIn hIn f).pointerY = f.pointerY := by
  constructor <;> simp [updateFish]

/-- The fish phase of the tick stores the pointer sample through the
safe-number fallback. -/
lemma fishPhase_pointer (env : Env) (cfg : Config) (wIn hIn : ℚ) (ap : Pointer) (f : Fish) :
    (fishPhase env cfg wIn hIn ap f).pointerX = safeNumD ap.x f.pointerX
    ∧ (fishPhase env cfg wIn hIn ap f).pointerY = safeNumD ap.y f.pointerY := by
  rcases hm : env.intersectPlane
      (oSub (oMul (oDiv ap.x (some wIn)) (some 2)) (some 1))
      (oAdd (oMul (oNeg (oDiv ap.y (some hIn))) (some 2)) (some 1)) with _ | hit <;>
    constructor <;> simp [fishPhase, hm, updateFish]

/-- The fish phase of the tick always leaves a finite pose. -/
lemma fishPhase_finite (env : Env) (cfg : Config) (wIn hIn : ℚ) (ap : Pointer) (f : Fish) :
    PoseFinite (fishPhase env cfg wIn hIn ap f) := by
  rcases hm : env.intersectPlane
      (oSub (oMul (oDiv ap.x (some wIn)) (some 2)) (some 1))
      (oAdd (oMul (oNeg (oDiv ap.y (some hIn))) (some 2)) (some 1)) with _ | hit <;>
    · simp only [fishPhase, hm]
      exact updateFish_pose cfg wIn hIn _

/-- One tick with non-finite pointer samples: the fish survives, its
remembered pointer sample is unchanged (the non-finite coordinates fall
back to the previous valid values), and a finite pose stays finite. -/
lemma loopTick_bad (env : Env) (cfg : Config) (mp isH : Bool) (p h : Option Pointer)
    (now wIn hIn vbx vby : ℚ) (prand : ℚ × ℚ × ℚ) (hasCb : Bool)
    (st : CursorState) (f : Fish)
    (hfish : st.fish = some f)
    (hp : ∀ pp, p = some pp → pp.x = none ∧ pp.y = none)
    (hh : ∀ pp, h = some pp → pp.x = none ∧ pp.y = none) :
    ∃ f2, (loopTick env cfg mp isH p h now wIn hIn vbx vby prand hasCb st).1.fish = some f2
      ∧ f2.pointerX = f.pointerX ∧ f2.pointerY = f.pointerY
      ∧ (PoseFinite f → PoseFinite f2) := by
  cases hready : st.ready with
  | false =>
    refine ⟨f, ?_, rfl, rfl, fun hf => hf⟩
    simp [loopTick, hready, hfish]
  | true =>
    rcases hc : resolveController mp p h now with _ | ctl
    · refine ⟨f, ?_, rfl, rfl, fun hf => hf⟩
      simp [loopTick, hready, hfish, hc]
    · cases ctl with
      | participant =>
        cases hp2 : p with
        | none =>
          subst hp2
          refine ⟨f, ?_, rfl, rfl, fun hf => hf⟩
          simp [loopTick, hready, hfish, hc]
        | some pp =>
          subst hp2
          obtain ⟨hx, hy⟩ := hp pp rfl
          refine ⟨fishPhase env cfg wIn hIn pp f, ?_, ?_, ?_,
            fun _ => fishPhase_finite env cfg wIn hIn pp f⟩
          · simp [loopTick, hready, hfish, hc]
          · rw [(fishPhase_pointer env cfg wIn hIn pp f).1, hx]; rfl
          · rw [(fishPhase_pointer env cfg wIn hIn pp f).2, hy]; rfl
      | host =>
        cases hh2 : h with
        | none =>
          subst hh2
          refine ⟨f, ?_, rfl, rfl, fun hf => hf⟩
          simp [loopTick, hready, hfish, hc]
        | some pp =>
          subst hh2
          obtain ⟨hx, hy⟩ := hh pp rfl
          refine ⟨fishPhase env cfg wIn hIn pp f, ?_, ?_, ?_,
            fun _ => fishPhase_finite env cfg wIn hIn pp f⟩
          · simp [loopTick, hready, hfish, hc]
          · rw [(fishPhase_pointer env cfg wIn hIn pp f).1, hx]; rfl
          · rw [(fishPhase_pointer env cfg wIn hIn pp f).2, hy]; rfl

/-- A run of the animation loop over a list of ticks, each given by its
wall clock and the two registry pointers. -/
def runTicks (env : Env) (cfg : Config) (mp isH : Bool) (wIn hIn vbx vby : ℚ)
    (prand : ℚ × ℚ × ℚ) (hasCb : Bool) (st : CursorState)
    (ticks : List (ℚ × Option Pointer × Option Pointer)) : CursorState :=
  ticks.foldl (fun s t =>
    (loopTick env cfg mp isH t.2.1 t.2.2 t.1 wIn hIn vbx vby prand hasCb s).1) st

/-- C8 amended: feeding the animation loop any sequence of ticks whose
pointer samples all have non-finite coordinates never writes a non-finite
number into the creature pose: starting from a finite pose the pose stays
finite after the whole run, and the remembered pointer values (which
drive the speed signals) stay at their last valid values, every
non-finite intermediate falling back to the previous valid value.  The
pose itself may still move, because smoothing keeps converging toward
the last valid target (see the counterexample). -/
theorem nonfinite_samples_pose_finite (env : Env) (cfg : Config) (mp isH : Bool)
    (wIn hIn vbx vby : ℚ) (prand : ℚ × ℚ × ℚ) (hasCb : Bool)
    (st : CursorState) (f : Fish)
    (ticks : List (ℚ × Option Pointer × Option Pointer))
    (hfish : st.fish = some f) (hfin : PoseFinite f)
    (hbad : ∀ t ∈ ticks, (∀ pp, t.2.1 = some pp → pp.x = none ∧ pp.y = none)
        ∧ (∀ pp, t.2.2 = some pp → pp.x = none ∧ pp.y = none)) :
    ∃ f2, (runTicks env cfg mp isH wIn hIn vbx vby prand hasCb st ticks).fish = some f2
      ∧ PoseFinite f2 ∧ f2.pointerX = f.pointerX ∧ f2.pointerY = f.pointerY := by
  induction ticks generalizing st f with
  | nil => exact ⟨f, hfish, hfin, rfl, rfl⟩
  | cons t ts ih =>
    obtain ⟨hpt, hht⟩ := hbad t (by simp)
    obtain ⟨f1, hf1, hpx, hpy, hfin1⟩ :=
      loopTick_bad env cfg mp isH t.2.1 t.2.2 t.1 wIn hIn vbx vby prand hasCb st f
        hfish hpt hht
    obtain ⟨f2, hf2, hfin2, hpx2, hpy2⟩ :=
      ih (loopTick env cfg mp isH t.2.1 t.2.2 t.1 wIn hIn vbx vby prand hasCb st).1 f1
        hf1 (hfin1 hfin) (fun t2 ht2 => hbad t2 (by simp [ht2]))
    refine ⟨f2, ?_, hfin2, hpx2.trans hpx, hpy2.trans hpy⟩
    simpa [runTicks] using hf2

/-- Projection of the creature x position out of the cursor state. -/
def fishPosX (st : CursorState) : Option ℚ :=
  match st.fish with
  | some f => f.posX
  | none => none

/-- A live pointer whose sample coordinates are both non-finite. -/
def pBad : Pointer := { x := none, y := none, lastSeen := 1000 }

/-- A fish at the origin whose smoothing target (set by an earlier valid
tick) is x = 10, with a remembered valid pointer sample. -/
def fC8 : Fish := { fW with targetX := some 10, pointerX := some 500, pointerY := some 300 }

/-- A ready state holding fC8. -/
def stC8 : CursorState := { stW with fish := some fC8, lastT := 1000 }

/-- Witness for nonfinite_samples_pose_finite: one tick with a live
non-finite participant sample keeps the pose finite and the remembered
pointer unchanged. -/
theorem nonfinite_samples_pose_finite_witness :
    ∃ f2, (runTicks envW cfgW true false 1000 1000 5 5 (0, 0, 0) true stC8
        [(1000, some pBad, none)]).fish = some f2
      ∧ PoseFinite f2 ∧ f2.pointerX = fC8.pointerX ∧ f2.pointerY = fC8.pointerY := by
  refine nonfinite_samples_pose_finite envW cfgW true false 1000 1000 5 5 (0, 0, 0) true
    stC8 fC8 [(1000, some pBad, none)] rfl ?_ ?_
  · simp [PoseFinite, fC8, fW]
  · intro t ht
    simp only [List.mem_singleton] at ht
    subst ht
    refine ⟨fun pp hp => ?_, fun pp hp => Option.noConfusion hp⟩
    cases hp
    exact ⟨rfl, rfl⟩

/-- C8 counterexample: the claim says a sequence of non-finite pointer
samples never changes the pose from its last valid value.  Here one tick
whose only sample has NaN coordinates moves the creature from x = 0 to
x = 1, because the non-finite sample is absorbed by the fallbacks while
exponential smoothing keeps pulling the pose toward the previously set
target x = 10 (SMOOTHING = 10). -/
theorem nonfinite_sample_pose_changes :
    pBad.x = none ∧ pBad.y = none
    ∧ fishPosX stC8 = some 0
    ∧ fishPosX (loopTick envW cfgW true false (some pBad) none 1000 1000 1000 5 5
        (0, 0, 0) true stC8).1 = some 1
    ∧ (some (1 : ℚ) : Option ℚ) ≠ some 0 := by
  have hlive : pointerLive (some pBad) 1000 = true := by
    simp [pointerLive, pBad, INACTIVE_TIMEOUT_MS]
  have hres : resolveController true (some pBad) none 1000 = some Controller.participant := by
    simp [resolveController, hlive]
  have hposX : (fishPhase envW cfgW 1000 1000 pBad fC8).posX = some 1 := by
    simp [fishPhase, envW, updateFish, cfgW, fC8, fW, safeNum, safeNumD, oAdd, oSub, oMul,
      oDiv, oNeg]
  refine ⟨rfl, rfl, by simp [fishPosX, stC8, fC8, fW], ?_, by simp⟩
  simp [fishPosX, loopTick, stC8, stW, hres, hposX]

/-- Witness for generateRandomStars_spec at a concrete input: the missing
grid size defaults to 4. -/
theorem generateRandomStars_spec_witness :
    validateGridSize none = 4
    ∧ (generateRandomStars (fun _ => 0) (fun _ _ => "s") none).length
        = max 1 (Int.toNat ⌈((validateGridSize none * validateGridSize none : ℕ) : ℚ) / 2⌉) :=
  ⟨(generateRandomStars_spec (fun _ => 0) (fun _ _ => "s") none).1 rfl,
   (generateRandomStars_spec (fun _ => 0) (fun _ _ => "s") none).2.2.2.1⟩

/-- Witness for updatePointerPosition_guard at concrete inputs. -/
theorem updatePointerPosition_guard_witness :
    updatePointerPosition regW JSArg.undef (JSArg.num (some 1)) "q" 5 = regW
    ∧ updatePointerPosition regW (JSArg.num none) (JSArg.num (some 1)) "q" 5 "q"
        = some { x := none, y := some 1, lastSeen := 5 } :=
  ⟨(updatePointerPosition_guard regW JSArg.undef (JSArg.num (some 1)) "q" 5).1 (Or.inl rfl),
   (updatePointerPosition_guard regW (JSArg.num none) (JSArg.num (some 1)) "q" 5).2
     none (some 1) rfl rfl⟩

end Squidly
